import Mathlib

/-!
Verification of the DAOS page-storage backend (`RPageStorageDaos.cxx`).

The development shallowly embeds the backend's pure algorithms and the
KVStore-visible effects of its stateful operations:

* the anchor codec (`RDaosNTupleAnchor.Serialize` / `Deserialize` / `GetSize`),
* the page-key mapping (`GetPageDaosKey` under the default `kOidPerCluster`
  mapping) and the reserved key constants,
* the sink's page/cluster/dataset commit operations, modelled as explicit
  state passing over a `SinkState` that records the page-id and
  cluster-group-id counters, the in-memory anchor and the ordered trace of
  KVStore write operations,
* the source's `AttachImpl` bootstrap, modelled as the ordered trace of
  KVStore reads together with the deserialized anchor.

Buffers are byte lists (`List Nat`, each entry an octet value).  Machine
`uint32` truncation is made explicit where it matters (`% 2 ^ 32` in the
little-endian codec).  External collaborators (the compressor, the
descriptor builder, the DAOS driver's object-class table) are parameters of
the corresponding definitions.
-/

namespace DaosPageStorage

/-! ## Little-endian `u32` and length-prefixed string codecs

Modelled from the spec: `RNTupleSerializer::{Serialize,Deserialize}UInt32`
and `{Serialize,Deserialize}String` live in `RNTupleSerialize.hxx/cxx`,
which is not part of the sources under review.  The spec fixes their
behaviour: five fields are "little-endian `u32`", the object class is "a
length-prefixed UTF-8 object-class string (length as `u32` prefix)", and
string deserialization is "bounded by `bufLen - 20`, propagating
string-decode errors". -/

/-- Little-endian serialization of a `u32` value: four octets, least
significant first.  For `v ≥ 2^32` this writes `v % 2^32`, matching the
C++ `std::uint32_t` argument type. -/
def serializeUInt32 (v : Nat) : List Nat :=
  [v % 256, v / 256 % 256, v / 65536 % 256, v / 16777216 % 256]

/-- Little-endian deserialization of a `u32` from the first four entries of
a byte buffer (missing entries read as 0 to keep the function total; all
call sites stay in bounds). -/
def deserializeUInt32 : List Nat → Nat
  | b0 :: b1 :: b2 :: b3 :: _ => b0 + 256 * b1 + 65536 * b2 + 16777216 * b3
  | [b0, b1, b2] => b0 + 256 * b1 + 65536 * b2
  | [b0, b1] => b0 + 256 * b1
  | [b0] => b0
  | [] => 0

/-- Modelled from the spec: `RNTupleSerializer::SerializeString` writes the
string's length as a `u32` prefix followed by its bytes. -/
def serializeString (s : List Nat) : List Nat :=
  serializeUInt32 s.length ++ s

/-- Modelled from the spec: the number of bytes `SerializeString` needs
(`sizeof(std::uint32_t)` plus the string length); this is also what the
`nullptr`-buffer call returns. -/
def serializeStringSize (s : List Nat) : Nat :=
  4 + s.length

/-- Modelled from the spec: `RNTupleSerializer::DeserializeString` fails if
the bound is smaller than the `u32` prefix, reads the length prefix, fails
if the announced length exceeds the remaining bound, and otherwise returns
the string bytes together with the number of bytes consumed. -/
def deserializeString (b : List Nat) (bufSize : Nat) : Except String (List Nat × Nat) :=
  if bufSize < 4 then
    .error "string buffer too short"
  else
    let len := deserializeUInt32 b
    if bufSize - 4 < len then
      .error "string buffer too short"
    else
      .ok ((b.drop 4).take len, 4 + len)

/-! ## The anchor codec (`RDaosNTupleAnchor`) -/

/-- The DAOS ntuple anchor: five `u32` fields plus the object-class name
(kept as its byte string). -/
structure RDaosNTupleAnchor where
  fVersion : Nat
  fNBytesHeader : Nat
  fLenHeader : Nat
  fNBytesFooter : Nat
  fLenFooter : Nat
  fObjClass : List Nat
deriving DecidableEq, Repr

/-- `RDaosNTupleAnchor::Serialize` with a non-null buffer: the five fields
as little-endian `u32` followed by the length-prefixed object-class
string. -/
def RDaosNTupleAnchor.Serialize (a : RDaosNTupleAnchor) : List Nat :=
  serializeUInt32 a.fVersion ++ serializeUInt32 a.fNBytesHeader ++
  serializeUInt32 a.fLenHeader ++ serializeUInt32 a.fNBytesFooter ++
  serializeUInt32 a.fLenFooter ++ serializeString a.fObjClass

/-- `RDaosNTupleAnchor::Serialize`'s return value (also the `nullptr`-buffer
path, which writes nothing): `SerializeString(fObjClass, nullptr) + 20`. -/
def RDaosNTupleAnchor.SerializeSize (a : RDaosNTupleAnchor) : Nat :=
  serializeStringSize a.fObjClass + 20

/-- `RDaosNTupleAnchor::Deserialize`: fails with "DAOS anchor too short"
when `bufSize < 20`; otherwise reads the five `u32` fields at offsets
0,4,8,12,16, then the length-prefixed string bounded by `bufSize - 20`,
forwarding a string-decode error and otherwise returning the anchor and
the consumed byte count (string consumption plus 20). -/
def RDaosNTupleAnchor.Deserialize (buffer : List Nat) (bufSize : Nat) :
    Except String (RDaosNTupleAnchor × Nat) :=
  if bufSize < 20 then
    .error "DAOS anchor too short"
  else
    match deserializeString (buffer.drop 20) (bufSize - 20) with
    | .error e => .error e
    | .ok (s, nStr) =>
      .ok (⟨deserializeUInt32 buffer, deserializeUInt32 (buffer.drop 4),
            deserializeUInt32 (buffer.drop 8), deserializeUInt32 (buffer.drop 12),
            deserializeUInt32 (buffer.drop 16), s⟩, nStr + 20)

/-- Modelled from the spec: the default-constructed `RDaosNTupleAnchor`
(declared in `RPageStorageDaos.hxx`, not among the sources under review)
has all-zero fields and an empty object-class string; the spec's
`maxSize() = 20 + maxStringPrefix + MAX_CLASS_NAME` formula presupposes
exactly this. -/
def RDaosNTupleAnchor.default : RDaosNTupleAnchor :=
  ⟨0, 0, 0, 0, 0, []⟩

/-- `RDaosNTupleAnchor::GetSize`:
`RDaosNTupleAnchor().Serialize(nullptr) + kOCNameMaxLength`.  The driver's
object-class-name bound `RDaosObject::ObjClassId::kOCNameMaxLength` is not
among the sources under review; it is kept as the parameter `maxLen`. -/
def RDaosNTupleAnchor.GetSize (maxLen : Nat) : Nat :=
  RDaosNTupleAnchor.default.SerializeSize + maxLen

/-! ## Pre-defined keys and the page-key mapping

The constants and `GetPageDaosKey` are taken verbatim from the anonymous
namespace of `RPageStorageDaos.cxx`.  `daos_obj_id_t` is a pair of `u64`
(`lo`, `hi`); distribution and attribute keys are `u64`. -/

def kDistributionKeyDefault : Nat := 0x5a3c69f0cafe4a11

def kAttributeKeyDefault : Nat := 0x4243544b53444229

def kAttributeKeyAnchor : Nat := 0x4243544b5344422a

def kAttributeKeyHeader : Nat := 0x4243544b5344422b

def kAttributeKeyFooter : Nat := 0x4243544b5344422c

/-- `kOidMetadata{std::uint64_t(-1), 0}`. -/
def kOidMetadata : Nat × Nat := (2 ^ 64 - 1, 0)

/-- `kOidPageList{std::uint64_t(-2), 0}`. -/
def kOidPageList : Nat × Nat := (2 ^ 64 - 2, 0)

/-- A DAOS key triple: object id, distribution key, attribute key. -/
structure RDaosKey where
  fOid : Nat × Nat
  fDkey : Nat
  fAkey : Nat
deriving DecidableEq, Repr

/-- `GetPageDaosKey<kOidPerCluster>` — the default mapping
(`kDefaultDaosMapping = kOidPerCluster`): object id `(clusterId, 0)`,
distribution key `columnId`, attribute key `pageCount`, each cast to the
64-bit key type. -/
def GetPageDaosKey (clusterId columnId pageCount : Nat) : RDaosKey :=
  ⟨(clusterId % 2 ^ 64, 0), columnId % 2 ^ 64, pageCount % 2 ^ 64⟩

/-! ## The sink (`RPageSinkDaos`), as explicit state passing

A sink operation's KVStore effect is recorded in an ordered trace of
`DaosOp`s: `WriteSingleAkey` calls become `writeSingle` entries and a
`WriteV` call becomes one `writeV` entry carrying its i/o vector in
insertion order (the C++ aggregates the vector in a `std::map` keyed by
`(oid, dkey)`; the verified properties do not depend on that grouping, so
the insertion sequence is recorded instead). -/

/-- One KVStore write issued by the sink: `writeSingle oid dkey akey size
data` for `WriteSingleAkey`, and `writeV` for a batched `WriteV` whose
entries are `(oid, dkey, akey, data)` in insertion order. -/
inductive DaosOp where
  | writeSingle (oid : Nat × Nat) (dkey akey : Nat) (size : Nat) (data : List Nat)
  | writeV (reqs : List (RDaosKey × List Nat))
deriving DecidableEq, Repr

/-- `RNTupleLocator`, restricted to the two fields the DAOS sink fills. -/
structure RNTupleLocator where
  fPosition : Nat
  fBytesOnStorage : Nat
deriving DecidableEq, Repr

/-- The sink state the commit operations touch: the atomic page-id and
cluster-group-id counters, the per-cluster byte accumulator, the in-memory
anchor, and the ordered trace of KVStore writes issued so far. -/
structure SinkState where
  fPageId : Nat
  fClusterGroupId : Nat
  fNBytesCurrentCluster : Nat
  fNTupleAnchor : RDaosNTupleAnchor
  trace : List DaosOp
deriving DecidableEq, Repr

/-- Modelled from the spec: the sink's counters start at zero (the member
initializers live in `RPageStorageDaos.hxx`, not among the sources under
review; the spec requires positions "strictly increasing by 1 from 0"). -/
def initSinkState : SinkState :=
  ⟨0, 0, 0, RDaosNTupleAnchor.default, []⟩

/-- A sealed page, reduced to its byte buffer (`fSize` is the buffer
length). -/
abbrev SealedPage := List Nat

/-- `RPageSinkDaos::CommitSealedPageImpl`: draw `offsetData` from the
page-id counter, write the sealed buffer at
`GetPageDaosKey(nClusters, columnId, offsetData)`, account the payload in
the per-cluster byte accumulator, and return the locator
`{position = offsetData, bytesOnStorage = sealed size}`.  `nClusters` is
`fDescriptorBuilder.GetDescriptor().GetNClusters()`, a value of the
external descriptor builder. -/
def CommitSealedPageImpl (nClusters columnId : Nat) (sealed : SealedPage)
    (st : SinkState) : RNTupleLocator × SinkState :=
  let offsetData := st.fPageId
  let daosKey := GetPageDaosKey nClusters columnId offsetData
  (⟨offsetData, sealed.length⟩,
   { st with
     fPageId := st.fPageId + 1
     fNBytesCurrentCluster := st.fNBytesCurrentCluster + sealed.length
     trace := st.trace ++
       [.writeSingle daosKey.fOid daosKey.fDkey daosKey.fAkey sealed.length sealed] })

/-- One sealed-page group of `CommitSealedPageVImpl`'s input span: the
column id and the sealed pages of the `[fFirst, fLast)` iterator range. -/
abbrev SealedPageGroup := Nat × List SealedPage

/-- The flattened `(range, page)` iteration order over the input span. -/
def flattenRanges (ranges : List SealedPageGroup) : List (Nat × SealedPage) :=
  ranges.flatMap (fun r => r.2.map (fun s => (r.1, s)))

/-- The inner loop of `CommitSealedPageVImpl` over one range's pages:
starting from page-id counter value `pageId`, produce the locators, the
i/o-vector insertions, the payload byte count and the final counter
value. -/
def commitRangeLoop (nClusters columnId : Nat) (pages : List SealedPage)
    (pageId : Nat) : List RNTupleLocator × List (RDaosKey × List Nat) × Nat × Nat :=
  match pages with
  | [] => ([], [], 0, pageId)
  | s :: rest =>
    let daosKey := GetPageDaosKey nClusters columnId pageId
    let (locs, reqs, sz, pageId') := commitRangeLoop nClusters columnId rest (pageId + 1)
    (⟨pageId, s.length⟩ :: locs, (daosKey, s) :: reqs, s.length + sz, pageId')

/-- The outer loop of `CommitSealedPageVImpl` over the ranges. -/
def commitRangesLoop (nClusters : Nat) (ranges : List SealedPageGroup)
    (pageId : Nat) : List RNTupleLocator × List (RDaosKey × List Nat) × Nat × Nat :=
  match ranges with
  | [] => ([], [], 0, pageId)
  | (columnId, pages) :: rest =>
    let (locs, reqs, sz, pageId') := commitRangeLoop nClusters columnId pages pageId
    let (locs', reqs', sz', pageId'') := commitRangesLoop nClusters rest pageId'
    (locs ++ locs', reqs ++ reqs', sz + sz', pageId'')

/-- `RPageSinkDaos::CommitSealedPageVImpl`: for each sealed page across all
ranges, in `(range, page)` order, draw a page id from the counter, insert
the page into the batched write request, and record its locator; add the
payload to the per-cluster byte accumulator; issue one `WriteV`; return
the locators. -/
def CommitSealedPageVImpl (nClusters : Nat) (ranges : List SealedPageGroup)
    (st : SinkState) : List RNTupleLocator × SinkState :=
  let (locators, writeRequests, szPayload, pageId') :=
    commitRangesLoop nClusters ranges st.fPageId
  (locators,
   { st with
     fPageId := pageId'
     fNBytesCurrentCluster := st.fNBytesCurrentCluster + szPayload
     trace := st.trace ++ [.writeV writeRequests] })

/-- `RPageSinkDaos::CommitClusterImpl`: `std::exchange(fNBytesCurrentCluster, 0)`. -/
def CommitClusterImpl (st : SinkState) : Nat × SinkState :=
  (st.fNBytesCurrentCluster, { st with fNBytesCurrentCluster := 0 })

/-- `RPageSinkDaos::CommitClusterGroupImpl`: compress the pagelist (the
compressor is the external codec, passed as `zip`), draw the cluster-group
id, write at `(kOidPageList, kDistributionKeyDefault, cgId)`, and return
`{position = cgId, bytesOnStorage = compressed size}`. -/
def CommitClusterGroupImpl (zip : List Nat → List Nat)
    (serializedPageList : List Nat) (st : SinkState) : RNTupleLocator × SinkState :=
  let bufPageListZip := zip serializedPageList
  let offsetData := st.fClusterGroupId
  (⟨offsetData, bufPageListZip.length⟩,
   { st with
     fClusterGroupId := st.fClusterGroupId + 1
     trace := st.trace ++
       [.writeSingle kOidPageList kDistributionKeyDefault offsetData
          bufPageListZip.length bufPageListZip] })

/-- `RPageSinkDaos::WriteNTupleFooter`: write the (compressed) footer bytes
at `(kOidMetadata, kDistributionKeyDefault, kAttributeKeyFooter)`, then
record `fLenFooter` and `fNBytesFooter` in the in-memory anchor. -/
def WriteNTupleFooter (data : List Nat) (nbytes lenFooter : Nat)
    (st : SinkState) : SinkState :=
  { st with
    trace := st.trace ++
      [.writeSingle kOidMetadata kDistributionKeyDefault kAttributeKeyFooter nbytes data]
    fNTupleAnchor :=
      { st.fNTupleAnchor with fLenFooter := lenFooter, fNBytesFooter := nbytes } }

/-- `RPageSinkDaos::WriteNTupleAnchor`: serialize the anchor into a buffer
of `RDaosNTupleAnchor::GetSize()` bytes and write that whole buffer at
`(kOidMetadata, kDistributionKeyDefault, kAttributeKeyAnchor)`.  The bytes
past the serialized record are uninitialized in the C++ buffer; the event
records the meaningful serialized prefix as `data` and the full buffer
size as `size`. -/
def WriteNTupleAnchor (maxLen : Nat) (st : SinkState) : SinkState :=
  let ntplSize := RDaosNTupleAnchor.GetSize maxLen
  { st with
    trace := st.trace ++
      [.writeSingle kOidMetadata kDistributionKeyDefault kAttributeKeyAnchor
         ntplSize st.fNTupleAnchor.Serialize] }

/-- `RPageSinkDaos::CommitDatasetImpl`: compress the footer with the
external codec `zip`, call `WriteNTupleFooter` (which writes the footer and
updates the anchor fields `fLenFooter := length`, `fNBytesFooter := `
compressed size), then call `WriteNTupleAnchor`. -/
def CommitDatasetImpl (maxLen : Nat) (zip : List Nat → List Nat)
    (serializedFooter : List Nat) (length : Nat) (st : SinkState) : SinkState :=
  let bufFooterZip := zip serializedFooter
  WriteNTupleAnchor maxLen
    (WriteNTupleFooter bufFooterZip bufFooterZip.length length st)

/-! ## Commit sequences

A writer session, for the page-sequence invariant: any interleaving of
per-page commits (`CommitSealedPageImpl`) and batched commits
(`CommitSealedPageVImpl`). -/

/-- One page-commit operation of a writer session. -/
inductive CommitOp where
  | single (columnId : Nat) (sealed : SealedPage)
  | batch (ranges : List SealedPageGroup)

/-- The number of locators an operation returns (one per page). -/
def CommitOp.nPages : CommitOp → Nat
  | .single _ _ => 1
  | .batch ranges => (flattenRanges ranges).length

/-- The number of locators a sequence of commits returns. -/
def totalPages (ops : List CommitOp) : Nat :=
  (ops.map CommitOp.nPages).sum

/-- Run a sequence of page commits, concatenating the returned locators in
commit order. -/
def runCommits (nClusters : Nat) (ops : List CommitOp) (st : SinkState) :
    List RNTupleLocator × SinkState :=
  match ops with
  | [] => ([], st)
  | .single columnId sealed :: rest =>
    let (loc, st') := CommitSealedPageImpl nClusters columnId sealed st
    let (locs, st'') := runCommits nClusters rest st'
    (loc :: locs, st'')
  | .batch ranges :: rest =>
    let (locs, st') := CommitSealedPageVImpl nClusters ranges st
    let (locs', st'') := runCommits nClusters rest st'
    (locs ++ locs', st'')

/-! ## URI parsing

`ParseDaosURI` matches the whole URI against the ECMAScript regular
expression `daos://([^/]+)/(.+)` (`std::regex_match`).  The first group is
the maximal run of non-`/` octets after the scheme (it must be non-empty
and be followed by `/`); the second group must consume the rest of the
string, each octet matched by `.`, which excludes the line-terminator
octets `'\n'` (10) and `'\r'` (13).  The URI is a byte string. -/

/-- The scheme prefix `daos://` as octets. -/
def daosScheme : List Nat := [100, 97, 111, 115, 58, 47, 47]

/-- An octet `.` matches: anything but a line terminator. -/
def dotMatches (c : Nat) : Bool := c ≠ 10 ∧ c ≠ 13

/-- `ParseDaosURI`: returns the pool and container labels on a full regex
match of `daos://([^/]+)/(.+)`, and `none` (the C++ throws
"Invalid DAOS pool URI.") otherwise. -/
def ParseDaosURI (uri : List Nat) : Option (List Nat × List Nat) :=
  if daosScheme.isPrefixOf uri then
    let rest := uri.drop daosScheme.length
    let pool := rest.takeWhile (fun c => c ≠ 47)
    let poolSlash := rest.dropWhile (fun c => c ≠ 47)
    match pool, poolSlash with
    | [], _ => none
    | _, [] => none
    | _, _ :: container =>
      if container ≠ [] ∧ container.all dotMatches then
        some (pool, container)
      else
        none
  else
    none

/-! ## The source (`RPageSourceDaos::AttachImpl`)

Attach is modelled as the ordered trace of `ReadSingleAkey` calls together
with the deserialized anchor.  External collaborators are parameters:

* `store` maps a DAOS key triple to the stored record's bytes (a
  `ReadSingleAkey(buf, len, …)` fills `buf` with the record truncated to
  `len`; bytes past the stored record are uninitialized and modelled as
  zeros — no verified property depends on them);
* `isUnknownClass` is the DAOS driver's
  `RDaosObject::ObjClassId(…).IsUnknown()` check, whose class table is not
  among the sources under review;
* `clusterGroups` lists, for each cluster group of the externally
  deserialized footer in iteration order, its pagelist locator
  `(position, bytesOnStorage)` — header/footer decompression and the
  descriptor builder are out-of-scope collaborators. -/

/-- One KVStore read issued by the source during attach. -/
inductive ReadEvent where
  | readSingle (oid : Nat × Nat) (dkey akey : Nat) (size : Nat)
deriving DecidableEq, Repr

/-- The buffer contents after `ReadSingleAkey(buf, len)` on a record
`stored`: the record truncated to `len`, the rest of the buffer
uninitialized (modelled as zeros). -/
def readBuffer (stored : List Nat) (len : Nat) : List Nat :=
  stored.take len ++ List.replicate (len - stored.length) 0

/-- `RPageSourceDaos::AttachImpl`, up to the externally built descriptor:
read the anchor into a buffer of `RDaosNTupleAnchor::GetSize()` bytes and
deserialize it (`Unwrap()` escalates a deserialization error); fail with
"Unknown object class" if the driver does not recognize the anchor's
object class; otherwise read the compressed header (`fNBytesHeader`
bytes), the compressed footer (`fNBytesFooter` bytes) and, for each
cluster group in the footer's order, its pagelist
(`bytesOnStorage` bytes at attribute key `position`). -/
def AttachImpl (maxLen : Nat) (isUnknownClass : List Nat → Bool)
    (store : RDaosKey → List Nat) (clusterGroups : List (Nat × Nat)) :
    List ReadEvent × Except String RDaosNTupleAnchor :=
  let ntplSize := RDaosNTupleAnchor.GetSize maxLen
  let anchorRead : ReadEvent :=
    .readSingle kOidMetadata kDistributionKeyDefault kAttributeKeyAnchor ntplSize
  let buffer :=
    readBuffer (store ⟨kOidMetadata, kDistributionKeyDefault, kAttributeKeyAnchor⟩) ntplSize
  match RDaosNTupleAnchor.Deserialize buffer ntplSize with
  | .error e => ([anchorRead], .error e)
  | .ok (ntpl, _) =>
    if isUnknownClass ntpl.fObjClass then
      ([anchorRead], .error "Unknown object class")
    else
      ([anchorRead,
        .readSingle kOidMetadata kDistributionKeyDefault kAttributeKeyHeader ntpl.fNBytesHeader,
        .readSingle kOidMetadata kDistributionKeyDefault kAttributeKeyFooter ntpl.fNBytesFooter]
       ++ clusterGroups.map
            (fun cg => .readSingle kOidPageList kDistributionKeyDefault cg.1 cg.2),
       .ok ntpl)

/-! ## Helper lemmas -/

theorem deserializeUInt32_serializeUInt32 (v : Nat) (rest : List Nat) :
    deserializeUInt32 (serializeUInt32 v ++ rest) = v % 2 ^ 32 := by
  show v % 256 + 256 * (v / 256 % 256) + 65536 * (v / 65536 % 256) +
      16777216 * (v / 16777216 % 256) = v % 2 ^ 32
  have h : (2 : Nat) ^ 32 = 4294967296 := by norm_num
  rw [h]
  omega

theorem serializeUInt32_append_drop (v : Nat) (rest : List Nat) :
    (serializeUInt32 v ++ rest).drop 4 = rest := rfl

theorem deserializeString_serializeString (s junk : List Nat)
    (hlen : s.length < 2 ^ 32) :
    deserializeString (serializeString s ++ junk) (4 + s.length + junk.length) =
      .ok (s, 4 + s.length) := by
  unfold deserializeString serializeString
  rw [List.append_assoc, deserializeUInt32_serializeUInt32,
    Nat.mod_eq_of_lt hlen, serializeUInt32_append_drop]
  have h1 : ¬(4 + s.length + junk.length < 4) := by omega
  have h2 : ¬(4 + s.length + junk.length - 4 < s.length) := by omega
  simp only [h1, if_false, h2, List.take_left]

/-- Round trip of the anchor codec over the serialized record followed by
arbitrary trailing bytes, with the buffer size covering all of them. -/
theorem anchor_deserialize_serialize_append (a : RDaosNTupleAnchor) (junk : List Nat)
    (h1 : a.fVersion < 2 ^ 32) (h2 : a.fNBytesHeader < 2 ^ 32)
    (h3 : a.fLenHeader < 2 ^ 32) (h4 : a.fNBytesFooter < 2 ^ 32)
    (h5 : a.fLenFooter < 2 ^ 32) (h6 : a.fObjClass.length < 2 ^ 32) :
    RDaosNTupleAnchor.Deserialize (a.Serialize ++ junk) (a.SerializeSize + junk.length) =
      .ok (a, a.SerializeSize) := by
  unfold RDaosNTupleAnchor.Deserialize RDaosNTupleAnchor.Serialize
  have hsz : a.SerializeSize = 24 + a.fObjClass.length := by
    simp [RDaosNTupleAnchor.SerializeSize, serializeStringSize]; omega
  have hge : ¬(a.SerializeSize + junk.length < 20) := by omega
  simp only [hge, if_false, List.append_assoc, serializeUInt32_append_drop,
    deserializeUInt32_serializeUInt32]
  have hdrop20 :
      (serializeUInt32 a.fVersion ++ (serializeUInt32 a.fNBytesHeader ++
        (serializeUInt32 a.fLenHeader ++ (serializeUInt32 a.fNBytesFooter ++
        (serializeUInt32 a.fLenFooter ++ (serializeString a.fObjClass ++ junk)))))).drop 20 =
      serializeString a.fObjClass ++ junk := rfl
  have hdrop8 :
      (serializeUInt32 a.fVersion ++ (serializeUInt32 a.fNBytesHeader ++
        (serializeUInt32 a.fLenHeader ++ (serializeUInt32 a.fNBytesFooter ++
        (serializeUInt32 a.fLenFooter ++ (serializeString a.fObjClass ++ junk)))))).drop 8 =
      serializeUInt32 a.fLenHeader ++ (serializeUInt32 a.fNBytesFooter ++
        (serializeUInt32 a.fLenFooter ++ (serializeString a.fObjClass ++ junk))) := rfl
  have hdrop12 :
      (serializeUInt32 a.fVersion ++ (serializeUInt32 a.fNBytesHeader ++
        (serializeUInt32 a.fLenHeader ++ (serializeUInt32 a.fNBytesFooter ++
        (serializeUInt32 a.fLenFooter ++ (serializeString a.fObjClass ++ junk)))))).drop 12 =
      serializeUInt32 a.fNBytesFooter ++
        (serializeUInt32 a.fLenFooter ++ (serializeString a.fObjClass ++ junk)) := rfl
  have hdrop16 :
      (serializeUInt32 a.fVersion ++ (serializeUInt32 a.fNBytesHeader ++
        (serializeUInt32 a.fLenHeader ++ (serializeUInt32 a.fNBytesFooter ++
        (serializeUInt32 a.fLenFooter ++ (serializeString a.fObjClass ++ junk)))))).drop 16 =
      serializeUInt32 a.fLenFooter ++ (serializeString a.fObjClass ++ junk) := rfl
  rw [hdrop20, hdrop8, hdrop12, hdrop16]
  simp only [deserializeUInt32_serializeUInt32]
  have hbound : a.SerializeSize + junk.length - 20 = 4 + a.fObjClass.length + junk.length := by
    omega
  rw [hbound, deserializeString_serializeString _ _ h6]
  rw [Nat.mod_eq_of_lt h1, Nat.mod_eq_of_lt h2, Nat.mod_eq_of_lt h3,
    Nat.mod_eq_of_lt h4, Nat.mod_eq_of_lt h5]
  have hcons : (4 + a.fObjClass.length) + 20 = a.SerializeSize := by omega
  dsimp only
  rw [hcons]

/-! ## Claim theorems -/

/-- C1 — Anchor round-trip: for every anchor `A` whose object-class name
has length at most the driver's maximum class-name length (`maxLen`, with
the `u32` fields in range), deserializing the buffer produced by
`Serialize(A)` succeeds and yields `A` itself (all five fields and the
object class), consuming the whole serialized record. -/
theorem anchor_roundtrip (a : RDaosNTupleAnchor) (maxLen : Nat)
    (h1 : a.fVersion < 2 ^ 32) (h2 : a.fNBytesHeader < 2 ^ 32)
    (h3 : a.fLenHeader < 2 ^ 32) (h4 : a.fNBytesFooter < 2 ^ 32)
    (h5 : a.fLenFooter < 2 ^ 32) (hmax : maxLen < 2 ^ 32)
    (hlen : a.fObjClass.length ≤ maxLen) :
    RDaosNTupleAnchor.Deserialize a.Serialize a.SerializeSize =
      .ok (a, a.SerializeSize) := by
  have h6 : a.fObjClass.length < 2 ^ 32 := lt_of_le_of_lt hlen hmax
  have h := anchor_deserialize_serialize_append a [] h1 h2 h3 h4 h5 h6
  simpa using h

theorem anchor_roundtrip_witness :
    ((⟨7, 1000, 2000, 3000, 4000, [83, 88]⟩ : RDaosNTupleAnchor).fVersion < 2 ^ 32 ∧
     (⟨7, 1000, 2000, 3000, 4000, [83, 88]⟩ : RDaosNTupleAnchor).fObjClass.length ≤ 16) ∧
    RDaosNTupleAnchor.Deserialize
        (⟨7, 1000, 2000, 3000, 4000, [83, 88]⟩ : RDaosNTupleAnchor).Serialize
        (⟨7, 1000, 2000, 3000, 4000, [83, 88]⟩ : RDaosNTupleAnchor).SerializeSize =
      .ok (⟨7, 1000, 2000, 3000, 4000, [83, 88]⟩, 26) :=
  ⟨⟨by norm_num, by norm_num⟩,
   anchor_roundtrip ⟨7, 1000, 2000, 3000, 4000, [83, 88]⟩ 16 (by norm_num)
     (by norm_num) (by norm_num) (by norm_num) (by norm_num) (by norm_num)
     (by norm_num)⟩

/-- C6 — Anchor serialization layout: `Serialize` writes, at offsets
0,4,8,12,16, the five fields `version`, `nBytesHeader`, `lenHeader`,
`nBytesFooter`, `lenFooter` as little-endian `u32`, followed at offset 20
by the object-class string prefixed by its `u32` length; the `nullptr`
path (`SerializeSize`), which writes nothing, returns exactly the number
of bytes the serialized record occupies (20 plus the serialized string
length). -/
theorem anchor_serialize_layout (a : RDaosNTupleAnchor) :
    a.Serialize.take 4 = serializeUInt32 a.fVersion ∧
    (a.Serialize.drop 4).take 4 = serializeUInt32 a.fNBytesHeader ∧
    (a.Serialize.drop 8).take 4 = serializeUInt32 a.fLenHeader ∧
    (a.Serialize.drop 12).take 4 = serializeUInt32 a.fNBytesFooter ∧
    (a.Serialize.drop 16).take 4 = serializeUInt32 a.fLenFooter ∧
    a.Serialize.drop 20 = serializeUInt32 a.fObjClass.length ++ a.fObjClass ∧
    a.Serialize.length = a.SerializeSize ∧
    a.SerializeSize = 20 + (4 + a.fObjClass.length) := by
  refine ⟨rfl, rfl, rfl, rfl, rfl, rfl, ?_, ?_⟩
  · simp [RDaosNTupleAnchor.Serialize, RDaosNTupleAnchor.SerializeSize,
      serializeUInt32, serializeString, serializeStringSize]
    omega
  · simp [RDaosNTupleAnchor.SerializeSize, serializeStringSize]
    omega

/-- C7 — Anchor deserialization: any buffer whose declared size is below 20
bytes fails with the anchor-too-short error, independently of the buffer's
contents (no field is read); for sizes of at least 20, a string-decode
error over the `bufSize - 20`-bounded tail is propagated verbatim, and on
string-decode success the five `u32` fields are read little-endian from
offsets 0,4,8,12,16 and the consumed byte count is the string consumption
plus 20. -/
theorem anchor_deserialize_cases (buf : List Nat) (bufSize : Nat) :
    (bufSize < 20 →
      RDaosNTupleAnchor.Deserialize buf bufSize = .error "DAOS anchor too short") ∧
    (20 ≤ bufSize → ∀ e, deserializeString (buf.drop 20) (bufSize - 20) = .error e →
      RDaosNTupleAnchor.Deserialize buf bufSize = .error e) ∧
    (20 ≤ bufSize → ∀ s c, deserializeString (buf.drop 20) (bufSize - 20) = .ok (s, c) →
      RDaosNTupleAnchor.Deserialize buf bufSize =
        .ok (⟨deserializeUInt32 buf, deserializeUInt32 (buf.drop 4),
              deserializeUInt32 (buf.drop 8), deserializeUInt32 (buf.drop 12),
              deserializeUInt32 (buf.drop 16), s⟩, c + 20)) := by
  refine ⟨fun h => ?_, fun h e he => ?_, fun h s c hs => ?_⟩
  · simp [RDaosNTupleAnchor.Deserialize, h]
  · have h' : ¬(bufSize < 20) := by omega
    simp [RDaosNTupleAnchor.Deserialize, h', he]
  · have h' : ¬(bufSize < 20) := by omega
    simp [RDaosNTupleAnchor.Deserialize, h', hs]

theorem anchor_deserialize_cases_witness :
    ((0 : Nat) < 20 ∧
     RDaosNTupleAnchor.Deserialize [] 0 = .error "DAOS anchor too short") ∧
    ((20 : Nat) ≤ 20 ∧
     RDaosNTupleAnchor.Deserialize (List.replicate 20 0) 20 = .error "string buffer too short") ∧
    ((20 : Nat) ≤ 25 ∧
     RDaosNTupleAnchor.Deserialize (List.replicate 20 0 ++ [1, 0, 0, 0, 65]) 25 =
       .ok (⟨0, 0, 0, 0, 0, [65]⟩, 25)) :=
  ⟨⟨by norm_num, (anchor_deserialize_cases [] 0).1 (by norm_num)⟩,
   ⟨le_refl 20,
    (anchor_deserialize_cases (List.replicate 20 0) 20).2.1 (le_refl 20)
      "string buffer too short" rfl⟩,
   ⟨by norm_num,
    (anchor_deserialize_cases (List.replicate 20 0 ++ [1, 0, 0, 0, 65]) 25).2.2
      (by norm_num) [65] 5 rfl⟩⟩

/-! ## Page-commit sequence lemmas -/

theorem commitRangeLoop_locators (nClusters columnId : Nat) :
    ∀ (pages : List SealedPage) (pageId : Nat),
      (commitRangeLoop nClusters columnId pages pageId).1 =
        List.zipWith RNTupleLocator.mk (List.range' pageId pages.length)
          (pages.map List.length)
  | [], _ => rfl
  | s :: rest, pageId => by
    simp [commitRangeLoop, List.range'_succ,
      commitRangeLoop_locators nClusters columnId rest (pageId + 1)]

theorem commitRangeLoop_pageId (nClusters columnId : Nat) :
    ∀ (pages : List SealedPage) (pageId : Nat),
      (commitRangeLoop nClusters columnId pages pageId).2.2.2 = pageId + pages.length
  | [], _ => by simp [commitRangeLoop]
  | s :: rest, pageId => by
    simp [commitRangeLoop, commitRangeLoop_pageId nClusters columnId rest (pageId + 1)]
    omega

theorem commitRangesLoop_locators (nClusters : Nat) :
    ∀ (ranges : List SealedPageGroup) (pageId : Nat),
      (commitRangesLoop nClusters ranges pageId).1 =
        List.zipWith RNTupleLocator.mk
          (List.range' pageId (flattenRanges ranges).length)
          ((flattenRanges ranges).map (fun q => q.2.length))
  | [], _ => rfl
  | (columnId, pages) :: rest, pageId => by
    have ih := commitRangesLoop_locators nClusters rest (pageId + pages.length)
    have hflat : flattenRanges ((columnId, pages) :: rest) =
        pages.map (fun s => (columnId, s)) ++ flattenRanges rest := by
      simp [flattenRanges]
    simp only [commitRangesLoop]
    rw [commitRangeLoop_locators, commitRangeLoop_pageId, ih, hflat]
    simp only [List.length_append, List.length_map]
    rw [List.map_append]
    have hmap : (pages.map (fun s => (columnId, s))).map (fun q => q.2.length) =
        pages.map List.length := by
      simp [Function.comp]
    rw [hmap, Nat.add_comm pages.length (flattenRanges rest).length,
      ← List.range'_append_1, List.zipWith_append _ _ _ _ _ (by simp)]

theorem commitRangesLoop_pageId (nClusters : Nat) :
    ∀ (ranges : List SealedPageGroup) (pageId : Nat),
      (commitRangesLoop nClusters ranges pageId).2.2.2 =
        pageId + (flattenRanges ranges).length
  | [], _ => by simp [commitRangesLoop, flattenRanges]
  | (columnId, pages) :: rest, pageId => by
    simp only [commitRangesLoop, flattenRanges, List.flatMap_cons, List.length_append,
      List.length_map]
    rw [commitRangeLoop_pageId, commitRangesLoop_pageId nClusters rest]
    simp [flattenRanges]
    omega

theorem totalPages_cons (op : CommitOp) (rest : List CommitOp) :
    totalPages (op :: rest) = op.nPages + totalPages rest := by
  simp [totalPages]

theorem map_fPosition_zipWith_mk :
    ∀ (ps szs : List Nat), ps.length = szs.length →
      (List.zipWith RNTupleLocator.mk ps szs).map RNTupleLocator.fPosition = ps
  | [], [], _ => rfl
  | p :: ps, sz :: szs, h => by
    simp only [List.zipWith_cons_cons, List.map_cons]
    rw [map_fPosition_zipWith_mk ps szs (by simpa using h)]
  | [], _ :: _, h => by simp at h
  | _ :: _, [], h => by simp at h

/-- The positions returned by a run of page commits, generalized over the
starting value of the page-id counter. -/
theorem runCommits_positions (nClusters : Nat) :
    ∀ (ops : List CommitOp) (st : SinkState),
      ((runCommits nClusters ops st).1.map RNTupleLocator.fPosition =
        List.range' st.fPageId (totalPages ops)) ∧
      (runCommits nClusters ops st).2.fPageId = st.fPageId + totalPages ops
  | [], st => by simp [runCommits, totalPages]
  | .single columnId sealed :: rest, st => by
    have ih := runCommits_positions nClusters rest
      ((CommitSealedPageImpl nClusters columnId sealed st).2)
    have hst : (CommitSealedPageImpl nClusters columnId sealed st).2.fPageId =
        st.fPageId + 1 := rfl
    simp only [runCommits, List.map_cons, totalPages_cons, CommitOp.nPages]
    rw [ih.1, ih.2, hst]
    refine ⟨?_, by omega⟩
    have hpos : (CommitSealedPageImpl nClusters columnId sealed st).1.fPosition =
        st.fPageId := rfl
    rw [hpos, show 1 + totalPages rest = totalPages rest + 1 from by omega,
      List.range'_succ]
  | .batch ranges :: rest, st => by
    have hv : (CommitSealedPageVImpl nClusters ranges st).2.fPageId =
        st.fPageId + (flattenRanges ranges).length := by
      simp only [CommitSealedPageVImpl]
      exact commitRangesLoop_pageId nClusters ranges st.fPageId
    have ih := runCommits_positions nClusters rest
      ((CommitSealedPageVImpl nClusters ranges st).2)
    have hloc : (CommitSealedPageVImpl nClusters ranges st).1.map RNTupleLocator.fPosition =
        List.range' st.fPageId (flattenRanges ranges).length := by
      simp only [CommitSealedPageVImpl]
      rw [commitRangesLoop_locators]
      exact map_fPosition_zipWith_mk _ _ (by simp)
    simp only [runCommits, List.map_append, totalPages_cons, CommitOp.nPages]
    rw [ih.1, ih.2, hv, hloc]
    refine ⟨?_, by omega⟩
    rw [show (flattenRanges ranges).length + totalPages rest =
      totalPages rest + (flattenRanges ranges).length from by omega,
      ← List.range'_append_1]

/-- C3 — Page-sequence monotonicity: within a single writer session
(starting from the initial sink state), over every sequence of per-page
commits (`CommitSealedPageImpl`) and batched commits
(`CommitSealedPageVImpl`), the `fPosition` fields of the returned
locators, taken in commit order, are exactly `0, 1, 2, …` — the range of
the total page count, strictly increasing by 1 from 0, with no gaps or
repeats. -/
theorem pageSeq_monotone (nClusters : Nat) (ops : List CommitOp) :
    ((runCommits nClusters ops initSinkState).1.map RNTupleLocator.fPosition) =
      List.range (totalPages ops) := by
  rw [List.range_eq_range']
  exact (runCommits_positions nClusters ops initSinkState).1

/-- C4 — Batch order preservation: the vector returned by
`CommitSealedPageVImpl` has one locator per page of the input span, and
its i-th element pairs the i-th assigned sequence number (counting from
the page-id counter's current value) with the sealed size of the i-th
page in the flattened iteration over ranges and, within each range, over
its pages in order. -/
theorem commitPages_batch_order (nClusters : Nat) (ranges : List SealedPageGroup)
    (st : SinkState) :
    (CommitSealedPageVImpl nClusters ranges st).1.length =
      (flattenRanges ranges).length ∧
    (CommitSealedPageVImpl nClusters ranges st).1 =
      List.zipWith RNTupleLocator.mk
        (List.range' st.fPageId (flattenRanges ranges).length)
        ((flattenRanges ranges).map (fun q => q.2.length)) := by
  have h : (CommitSealedPageVImpl nClusters ranges st).1 =
      List.zipWith RNTupleLocator.mk
        (List.range' st.fPageId (flattenRanges ranges).length)
        ((flattenRanges ranges).map (fun q => q.2.length)) := by
    simp only [CommitSealedPageVImpl]
    exact commitRangesLoop_locators nClusters ranges st.fPageId
  exact ⟨by rw [h]; simp, h⟩

/-- C2 — `CommitDatasetImpl` performs exactly two KVStore writes, in
order: first the compressed footer at the metadata object under the
footer attribute key, then — after recording `fLenFooter` and
`fNBytesFooter` in the anchor — the anchor (serialized with the updated
fields, in a buffer of `GetSize` bytes) at the anchor attribute key; the
anchor write is the last write of the trace. -/
theorem commitDataset_write_order (maxLen : Nat) (zip : List Nat → List Nat)
    (serializedFooter : List Nat) (length : Nat) (st : SinkState) :
    (CommitDatasetImpl maxLen zip serializedFooter length st).trace =
      st.trace ++
        [.writeSingle kOidMetadata kDistributionKeyDefault kAttributeKeyFooter
           (zip serializedFooter).length (zip serializedFooter),
         .writeSingle kOidMetadata kDistributionKeyDefault kAttributeKeyAnchor
           (RDaosNTupleAnchor.GetSize maxLen)
           (RDaosNTupleAnchor.Serialize
             { st.fNTupleAnchor with
               fLenFooter := length
               fNBytesFooter := (zip serializedFooter).length })] ∧
    (CommitDatasetImpl maxLen zip serializedFooter length st).fNTupleAnchor =
      { st.fNTupleAnchor with
        fLenFooter := length
        fNBytesFooter := (zip serializedFooter).length } := by
  constructor
  · simp [CommitDatasetImpl, WriteNTupleFooter, WriteNTupleAnchor]
  · rfl

/-- C5 — Key mapping: `GetPageDaosKey` is a pure function of
`(clusterId, columnId, pageSeq)`; under the default `kOidPerCluster`
variant it returns object id `(clusterId, 0)`, distribution key
`columnId` and attribute key `pageSeq`; the reserved metadata object id
is `(u64::MAX, 0)` and the pagelist object id is `(u64::MAX - 1, 0)`,
both disjoint from the object ids of user clusters. -/
theorem pageKey_mapping (clusterId columnId pageSeq : Nat)
    (hc : clusterId < 2 ^ 64 - 2) (hcol : columnId < 2 ^ 64)
    (hp : pageSeq < 2 ^ 64) :
    GetPageDaosKey clusterId columnId pageSeq = ⟨(clusterId, 0), columnId, pageSeq⟩ ∧
    kOidMetadata = (2 ^ 64 - 1, 0) ∧
    kOidPageList = (2 ^ 64 - 2, 0) ∧
    (GetPageDaosKey clusterId columnId pageSeq).fOid ≠ kOidMetadata ∧
    (GetPageDaosKey clusterId columnId pageSeq).fOid ≠ kOidPageList := by
  have hc' : clusterId < 2 ^ 64 := by omega
  have h : GetPageDaosKey clusterId columnId pageSeq =
      ⟨(clusterId, 0), columnId, pageSeq⟩ := by
    unfold GetPageDaosKey
    rw [Nat.mod_eq_of_lt hc', Nat.mod_eq_of_lt hcol, Nat.mod_eq_of_lt hp]
  refine ⟨h, rfl, rfl, ?_, ?_⟩
  · rw [h]
    simp [kOidMetadata]
    omega
  · rw [h]
    simp [kOidPageList]
    omega

theorem pageKey_mapping_witness :
    ((3 : Nat) < 2 ^ 64 - 2 ∧ (5 : Nat) < 2 ^ 64 ∧ (7 : Nat) < 2 ^ 64) ∧
    GetPageDaosKey 3 5 7 = ⟨(3, 0), 5, 7⟩ ∧
    (GetPageDaosKey 3 5 7).fOid ≠ kOidMetadata ∧
    (GetPageDaosKey 3 5 7).fOid ≠ kOidPageList :=
  ⟨⟨by norm_num, by norm_num, by norm_num⟩,
   (pageKey_mapping 3 5 7 (by norm_num) (by norm_num) (by norm_num)).1,
   (pageKey_mapping 3 5 7 (by norm_num) (by norm_num) (by norm_num)).2.2.2.1,
   (pageKey_mapping 3 5 7 (by norm_num) (by norm_num) (by norm_num)).2.2.2.2⟩

/-- The first KVStore read of `AttachImpl` is always the anchor read, in a
buffer of `GetSize` bytes. -/
theorem attachImpl_first_read (maxLen : Nat) (u : List Nat → Bool)
    (store : RDaosKey → List Nat) (cgs : List (Nat × Nat)) :
    (AttachImpl maxLen u store cgs).1.head? =
      some (.readSingle kOidMetadata kDistributionKeyDefault kAttributeKeyAnchor
        (RDaosNTupleAnchor.GetSize maxLen)) := by
  simp only [AttachImpl]
  split
  · rfl
  · split <;> rfl

/-- C8 — `GetSize` returns exactly `20 +` (the `u32` string-length prefix
size) `+ maxLen`, the driver's object-class-name upper bound; the anchor
is always written (`WriteNTupleAnchor`) and read (`AttachImpl`'s first
read) in a buffer of exactly this size; and trailing bytes beyond the
serialized record are ignored on read: deserializing the serialized
record extended by arbitrary extra bytes still yields the anchor. -/
theorem anchor_maxSize_buffer (maxLen : Nat) (st : SinkState)
    (u : List Nat → Bool) (store : RDaosKey → List Nat)
    (cgs : List (Nat × Nat)) (a : RDaosNTupleAnchor) (junk : List Nat)
    (h1 : a.fVersion < 2 ^ 32) (h2 : a.fNBytesHeader < 2 ^ 32)
    (h3 : a.fLenHeader < 2 ^ 32) (h4 : a.fNBytesFooter < 2 ^ 32)
    (h5 : a.fLenFooter < 2 ^ 32) (hmax : maxLen < 2 ^ 32)
    (hlen : a.fObjClass.length ≤ maxLen) :
    RDaosNTupleAnchor.GetSize maxLen = 20 + 4 + maxLen ∧
    (WriteNTupleAnchor maxLen st).trace = st.trace ++
      [.writeSingle kOidMetadata kDistributionKeyDefault kAttributeKeyAnchor
         (RDaosNTupleAnchor.GetSize maxLen) st.fNTupleAnchor.Serialize] ∧
    (AttachImpl maxLen u store cgs).1.head? =
      some (.readSingle kOidMetadata kDistributionKeyDefault kAttributeKeyAnchor
        (RDaosNTupleAnchor.GetSize maxLen)) ∧
    RDaosNTupleAnchor.Deserialize (a.Serialize ++ junk)
        (a.SerializeSize + junk.length) = .ok (a, a.SerializeSize) := by
  have h6 : a.fObjClass.length < 2 ^ 32 := lt_of_le_of_lt hlen hmax
  refine ⟨?_, rfl, attachImpl_first_read maxLen u store cgs,
    anchor_deserialize_serialize_append a junk h1 h2 h3 h4 h5 h6⟩
  simp [RDaosNTupleAnchor.GetSize, RDaosNTupleAnchor.SerializeSize,
    RDaosNTupleAnchor.default, serializeStringSize]

theorem anchor_maxSize_buffer_witness :
    ((⟨1, 2, 3, 4, 5, [83, 88]⟩ : RDaosNTupleAnchor).fObjClass.length ≤ 16 ∧
     (16 : Nat) < 2 ^ 32) ∧
    RDaosNTupleAnchor.GetSize 16 = 20 + 4 + 16 ∧
    RDaosNTupleAnchor.Deserialize
        ((⟨1, 2, 3, 4, 5, [83, 88]⟩ : RDaosNTupleAnchor).Serialize ++ [9, 9, 9, 9])
        ((⟨1, 2, 3, 4, 5, [83, 88]⟩ : RDaosNTupleAnchor).SerializeSize + [9, 9, 9, 9].length) =
      .ok (⟨1, 2, 3, 4, 5, [83, 88]⟩,
        (⟨1, 2, 3, 4, 5, [83, 88]⟩ : RDaosNTupleAnchor).SerializeSize) :=
  ⟨⟨by norm_num, by norm_num⟩,
   (anchor_maxSize_buffer 16 initSinkState (fun _ => false) (fun _ => []) []
     ⟨1, 2, 3, 4, 5, [83, 88]⟩ [9, 9, 9, 9] (by norm_num) (by norm_num) (by norm_num)
     (by norm_num) (by norm_num) (by norm_num) (by norm_num)).1,
   (anchor_maxSize_buffer 16 initSinkState (fun _ => false) (fun _ => []) []
     ⟨1, 2, 3, 4, 5, [83, 88]⟩ [9, 9, 9, 9] (by norm_num) (by norm_num) (by norm_num)
     (by norm_num) (by norm_num) (by norm_num) (by norm_num)).2.2.2⟩

/-- C10 — Unknown object class during attach: if the anchor deserializes
successfully but the driver does not recognize the object-class name
stored in it, `AttachImpl` fails with the unknown-object-class error, and
its read trace consists of the anchor read alone — the header, footer and
pagelists are never read. -/
theorem attach_unknown_class (maxLen : Nat) (u : List Nat → Bool)
    (store : RDaosKey → List Nat) (cgs : List (Nat × Nat))
    (a : RDaosNTupleAnchor) (n : Nat)
    (hdes : RDaosNTupleAnchor.Deserialize
        (readBuffer (store ⟨kOidMetadata, kDistributionKeyDefault, kAttributeKeyAnchor⟩)
          (RDaosNTupleAnchor.GetSize maxLen))
        (RDaosNTupleAnchor.GetSize maxLen) = .ok (a, n))
    (hu : u a.fObjClass = true) :
    (AttachImpl maxLen u store cgs).2 = .error "Unknown object class" ∧
    (AttachImpl maxLen u store cgs).1 =
      [.readSingle kOidMetadata kDistributionKeyDefault kAttributeKeyAnchor
        (RDaosNTupleAnchor.GetSize maxLen)] := by
  simp only [AttachImpl, hdes]
  simp [hu]

theorem attach_unknown_class_witness :
    (RDaosNTupleAnchor.Deserialize
        (readBuffer ((fun _ : RDaosKey => RDaosNTupleAnchor.default.Serialize)
            ⟨kOidMetadata, kDistributionKeyDefault, kAttributeKeyAnchor⟩)
          (RDaosNTupleAnchor.GetSize 16))
        (RDaosNTupleAnchor.GetSize 16) = .ok (RDaosNTupleAnchor.default, 24) ∧
     (fun _ : List Nat => true) RDaosNTupleAnchor.default.fObjClass = true) ∧
    (AttachImpl 16 (fun _ => true) (fun _ => RDaosNTupleAnchor.default.Serialize) []).2 =
      .error "Unknown object class" ∧
    (AttachImpl 16 (fun _ => true) (fun _ => RDaosNTupleAnchor.default.Serialize) []).1 =
      [.readSingle kOidMetadata kDistributionKeyDefault kAttributeKeyAnchor
        (RDaosNTupleAnchor.GetSize 16)] :=
  ⟨⟨rfl, rfl⟩,
   attach_unknown_class 16 (fun _ => true)
     (fun _ => RDaosNTupleAnchor.default.Serialize) [] RDaosNTupleAnchor.default 24
     rfl rfl⟩

/-! ## URI-parser lemmas -/

/-- `ParseDaosURI` with its local bindings unfolded. -/
theorem ParseDaosURI_unfold (uri : List Nat) :
    ParseDaosURI uri =
      (if daosScheme.isPrefixOf uri then
        match (uri.drop daosScheme.length).takeWhile (fun c => c ≠ 47),
              (uri.drop daosScheme.length).dropWhile (fun c => c ≠ 47) with
        | [], _ => none
        | _, [] => none
        | _, _ :: container =>
          if container ≠ [] ∧ container.all dotMatches then
            some ((uri.drop daosScheme.length).takeWhile (fun c => c ≠ 47), container)
          else
            none
      else
        none) := rfl

theorem takeWhile_no_slash (r : List Nat) :
    ∀ (l : List Nat), (∀ c ∈ l, c ≠ 47) →
      (l ++ 47 :: r).takeWhile (fun c => c ≠ 47) = l
  | [], _ => by
    rw [List.nil_append, List.takeWhile_cons_of_neg (by simp)]
  | x :: xs, h => by
    have hx : x ≠ 47 := h x (by simp)
    have ih := takeWhile_no_slash r xs (fun c hc => h c (by simp [hc]))
    rw [List.cons_append, List.takeWhile_cons_of_pos (by simp [hx]), ih]

theorem dropWhile_no_slash (r : List Nat) :
    ∀ (l : List Nat), (∀ c ∈ l, c ≠ 47) →
      (l ++ 47 :: r).dropWhile (fun c => c ≠ 47) = 47 :: r
  | [], _ => by
    rw [List.nil_append, List.dropWhile_cons_of_neg (by simp)]
  | x :: xs, h => by
    have hx : x ≠ 47 := h x (by simp)
    have ih := dropWhile_no_slash r xs (fun c hc => h c (by simp [hc]))
    rw [List.cons_append, List.dropWhile_cons_of_pos (by simp [hx]), ih]

theorem dropWhile_head_false {p : Nat → Bool} :
    ∀ (l : List Nat) (a : Nat) (t : List Nat), l.dropWhile p = a :: t → p a = false
  | [], a, t, h => by simp at h
  | x :: xs, a, t, h => by
    by_cases hx : p x
    · rw [List.dropWhile_cons_of_pos hx] at h
      exact dropWhile_head_false xs a t h
    · rw [List.dropWhile_cons_of_neg hx] at h
      cases h
      simpa using hx

/-- C9 (amended) — URI parsing, characterized: `ParseDaosURI` returns
`(pool, container)` exactly for the inputs `daos://<pool>/<container>`
(the code's concrete scheme; the spec renders the KVStore scheme as `kv`)
in which `pool` is non-empty and free of `'/'`, and `container` is
non-empty and free of the regex line-terminator octets `'\n'` and `'\r'`
(the second capture group `(.+)` of the ECMAScript pattern); every other
input is rejected with the invalid-URI error. -/
theorem parseDaosURI_characterization (uri pool container : List Nat) :
    ParseDaosURI uri = some (pool, container) ↔
      (uri = daosScheme ++ pool ++ 47 :: container ∧ pool ≠ [] ∧
       (∀ c ∈ pool, c ≠ 47) ∧ container ≠ [] ∧
       ∀ c ∈ container, c ≠ 10 ∧ c ≠ 13) := by
  rw [ParseDaosURI_unfold]
  constructor
  · intro hp
    by_cases hpre : daosScheme.isPrefixOf uri
    · rw [if_pos hpre] at hp
      obtain ⟨tail, htail⟩ : daosScheme <+: uri := List.isPrefixOf_iff_prefix.mp hpre
      have hdrop : uri.drop daosScheme.length = tail := by
        rw [← htail, List.drop_left]
      rw [hdrop] at hp
      cases hTW : tail.takeWhile (fun c => c ≠ 47) with
      | nil =>
        rw [hTW] at hp
        simp at hp
      | cons x xs =>
        cases hDW : tail.dropWhile (fun c => c ≠ 47) with
        | nil =>
          rw [hTW, hDW] at hp
          simp at hp
        | cons slash rest =>
          rw [hTW, hDW] at hp
          dsimp only at hp
          by_cases hcond : rest ≠ [] ∧ rest.all dotMatches
          · rw [if_pos hcond] at hp
            have hpair := Option.some.inj hp
            have hpool' : pool = x :: xs := (congrArg Prod.fst hpair).symm
            have hcont' : container = rest := (congrArg Prod.snd hpair).symm
            have hslash : slash = 47 := by
              have h47 := dropWhile_head_false tail slash rest hDW
              simpa using h47
            have htail2 : tail = pool ++ 47 :: container := by
              rw [hpool', hcont', ← hslash, ← hTW, ← hDW,
                List.takeWhile_append_dropWhile]
            refine ⟨by rw [← htail, htail2, List.append_assoc],
              by simp [hpool'], ?_, ?_, ?_⟩
            · intro c hc
              have hmem : c ∈ tail.takeWhile (fun c => c ≠ 47) := by
                rw [hTW, ← hpool']
                exact hc
              have hmem' := List.mem_takeWhile_imp hmem
              simpa using hmem'
            · rw [hcont']
              exact hcond.1
            · intro c hc
              rw [hcont'] at hc
              have hdm := List.all_eq_true.mp hcond.2 c hc
              simpa [dotMatches] using hdm
          · rw [if_neg hcond] at hp
            simp at hp
    · rw [if_neg hpre] at hp
      simp at hp
  · rintro ⟨huri, hpool, hslash, hcont, hlt⟩
    have hpre : daosScheme.isPrefixOf uri := by
      rw [huri, List.isPrefixOf_iff_prefix, List.append_assoc]
      exact List.prefix_append _ _
    have hdrop : uri.drop daosScheme.length = pool ++ 47 :: container := by
      rw [huri, List.append_assoc, List.drop_left]
    rw [if_pos hpre, hdrop, takeWhile_no_slash _ _ hslash,
      dropWhile_no_slash _ _ hslash]
    have hall : container.all dotMatches = true := by
      rw [List.all_eq_true]
      intro c hc
      have hc' := hlt c hc
      simp [dotMatches, hc'.1, hc'.2]
    cases pool with
    | nil => exact absurd rfl hpool
    | cons p ps =>
      dsimp only
      rw [if_pos ⟨hcont, hall⟩]

/-- C9 (counterexample) — the input `daos://p/` is of the claimed form
`scheme ++ pool ++ '/' ++ container` with a non-empty, slash-free pool
(`"p"`) and the empty container, yet `ParseDaosURI` rejects it instead of
returning the two labels. -/
theorem parseDaosURI_empty_container_cex :
    [100, 97, 111, 115, 58, 47, 47, 112, 47] =
      daosScheme ++ [112] ++ 47 :: ([] : List Nat) ∧
    ([112] : List Nat) ≠ [] ∧
    ([112] : List Nat).all (fun c => c ≠ 47) = true ∧
    ParseDaosURI [100, 97, 111, 115, 58, 47, 47, 112, 47] ≠
      some ([112], ([] : List Nat)) := by
  refine ⟨rfl, by simp, by decide, ?_⟩
  intro h
  simp [ParseDaosURI, daosScheme] at h

theorem parseDaosURI_characterization_witness :
    (([112] : List Nat) ≠ [] ∧ (∀ c ∈ ([112] : List Nat), c ≠ 47) ∧
     ([99] : List Nat) ≠ [] ∧ (∀ c ∈ ([99] : List Nat), c ≠ 10 ∧ c ≠ 13)) ∧
    ParseDaosURI [100, 97, 111, 115, 58, 47, 47, 112, 47, 99] = some ([112], [99]) :=
  ⟨⟨by simp, by decide, by simp, by decide⟩,
   (parseDaosURI_characterization [100, 97, 111, 115, 58, 47, 47, 112, 47, 99]
       [112] [99]).mpr
     ⟨rfl, by simp, by decide, by simp, by decide⟩⟩

end DaosPageStorage
